import Mathlib

/-!
Verification of the nxsimd aligned-memory allocator
(`include/nxsimd/memory/nx_aligned_allocator.hpp`).

Machine model: `size_t` values are natural numbers reduced modulo `2 ^ 64`
wherever the C code can wrap; pointers are numeric byte addresses; the word
store used by the portable fallback is a total function from byte addresses
to machine words.  Calls to the underlying plain allocator `malloc` are
modelled by an oracle function from the requested byte count to the raw
pointer obtained (`0` encodes a null result).
-/

namespace NXSimd

/-- Modulus of the 64-bit `size_t` type. -/
def M64 : Nat := 2 ^ 64

/-- Size in bytes of a machine word, `sizeof(void*)`. -/
def wordSize : Nat := 8

/-- C unsigned 64-bit subtraction `a - b`, wrapping modulo `2 ^ 64`
(`a` is assumed already reduced below `2 ^ 64`). -/
def sub64 (a b : Nat) : Nat := (a + M64 - b % M64) % M64

/-- C bitwise complement `~x` on a 64-bit `size_t` operand. -/
def not64 (x : Nat) : Nat := M64 - 1 - x % M64

/-- Portable fallback `detail::nx_aligned_malloc(size, alignment)`:
over-allocates `size + alignment` bytes via plain `malloc` (the `mallocf`
oracle), masks the raw address down to the alignment boundary and advances
by one full `alignment` step, stores the raw pointer in the machine word
immediately preceding the result, and returns the aligned address together
with the updated word store.  A null `malloc` result yields a null result
and leaves the store untouched. -/
def nx_aligned_malloc (mem : Nat → Nat) (mallocf : Nat → Nat)
    (size alignment : Nat) : Nat × (Nat → Nat) :=
  let ptr := mallocf ((size + alignment) % M64)
  if ptr ≠ 0 then
    let res := ((ptr &&& not64 (sub64 alignment 1)) + alignment) % M64
    (res, fun a => if a = sub64 res wordSize then ptr else mem a)
  else
    (0, mem)

/-- Portable fallback `detail::nx_aligned_free(ptr)`: for a non-null `ptr`
it reads the machine word immediately preceding `ptr` and releases the
address found there via plain `free`; the returned value is the address
passed to `free` (`none` when no deallocation happens at all). -/
def nx_aligned_free (mem : Nat → Nat) (ptr : Nat) : Option Nat :=
  if ptr ≠ 0 then some (mem (sub64 ptr wordSize)) else none

/-- Helper `get_alignment_offset(p, size, block_size)` for an element type
of byte size `sizeofT`, following the source literally: the misalignment
test is the bitmask `p & (sizeof(T) - 1)` and the block computation uses
the bitmask `block_size - 1`. -/
def get_alignment_offset (sizeofT p size block_size : Nat) : Nat :=
  if block_size = 1 then 0
  else if p &&& sub64 sizeofT 1 ≠ 0 then size
  else
    let block_mask := sub64 block_size 1
    min (sub64 block_size (p / sizeofT &&& block_mask) &&& block_mask) size

/-- Byte count `sizeof(T) * n` computed by `allocate` in `size_type`
arithmetic, i.e. modulo `2 ^ 64`. -/
def allocate_bytes (sizeofT n : Nat) : Nat := sizeofT * n % M64

/-- Body of `aligned_allocator::allocate` after the call to
`aligned_malloc`: a null result raises `std::bad_alloc` (the `error` case),
any other result is returned unchanged. -/
def allocate (res : Nat) : Except Unit Nat :=
  if res = 0 then Except.error () else Except.ok res

/-- Source `size_max()`: `size_type(-1) / sizeof(T)`, where `size_type(-1)`
is the wrapped value of `-1`, i.e. `2 ^ 64 - 1`. -/
def size_max (sizeofT : Nat) : Nat := sub64 0 1 / sizeofT

/-- An `aligned_allocator<T, Align>` instance: it owns no data, so its
observable identity is the template parameters, the alignment value and
the element type's byte size. -/
structure aligned_allocator where
  align : Nat
  elemSize : Nat

/-- Source `operator==`: compares the static `alignment` members, which
equal the respective `Align` template values; element types play no role. -/
def alloc_eq (lhs rhs : aligned_allocator) : Bool := lhs.align == rhs.align

/-- Source `operator!=`: the negation of `operator==`. -/
def alloc_ne (lhs rhs : aligned_allocator) : Bool := !alloc_eq lhs rhs

/-- Power-of-two test on naturals. -/
def isPow2 (n : Nat) : Bool := n != 0 && (n &&& (n - 1)) == 0

/-- The external libc call `posix_memalign(memptr, alignment, size)`,
modelled from its POSIX contract: it succeeds (error code 0) only when the
alignment argument is a power of two multiple of `sizeof(void*)` and the
allocator can supply a non-null address divisible by that alignment; the
nondeterministic choice of address is the `oracle` argument.  On failure it
returns a nonzero error code and leaves no allocation. -/
def posix_memalign (oracle alignArg _sizeArg : Nat) : Nat × Nat :=
  if isPow2 alignArg && (alignArg % wordSize == 0) &&
      (oracle % alignArg == 0) && (oracle != 0)
  then (0, oracle)
  else (22, 0)

/-- The `NX_HAS_POSIX_MEMALIGN` branch of `aligned_malloc(size, alignment)`,
following the source literally: it calls
`posix_memalign(&res, size, alignment)` (note the argument order), treats a
nonzero error code as a null result and otherwise returns the address. -/
def aligned_malloc_posix (oracle size alignment : Nat) : Nat :=
  let failed := (posix_memalign oracle size alignment).1
  if failed ≠ 0 then 0 else (posix_memalign oracle size alignment).2

/-- A concrete all-zero word store, used for concrete evaluations. -/
def mem0 : Nat → Nat := fun _ => 0

/-- A plain-malloc oracle that always returns address 16. -/
def malloc16 : Nat → Nat := fun _ => 16

/-- A plain-malloc oracle that always returns address 9. -/
def malloc9 : Nat → Nat := fun _ => 9

/-- A plain-malloc oracle that always returns address 32. -/
def malloc32 : Nat → Nat := fun _ => 32

/-- A plain-malloc oracle that always fails. -/
def mallocFail : Nat → Nat := fun _ => 0

lemma one_lt_M64 : 1 < M64 := by
  unfold M64
  norm_num

lemma sub64_eq (a b : Nat) (hb : b ≤ a) (hab : a - b < M64) (hbM : b < M64) :
    sub64 a b = a - b := by
  unfold sub64
  rw [Nat.mod_eq_of_lt hbM]
  have h : a + M64 - b = (a - b) + M64 := by omega
  rw [h, Nat.add_mod_right, Nat.mod_eq_of_lt hab]

lemma two_pow_le_M64 {k : Nat} (hk : k ≤ 64) : 2 ^ k ≤ M64 := by
  unfold M64
  exact Nat.pow_le_pow_right (by omega) hk

lemma two_pow_lt_M64 {k : Nat} (hk : k ≤ 63) : 2 ^ k < M64 := by
  unfold M64
  exact Nat.pow_lt_pow_right (by omega) (by omega)

lemma sub64_two_pow_one {k : Nat} (hk : k ≤ 63) : sub64 (2 ^ k) 1 = 2 ^ k - 1 := by
  have h1 : (1 : Nat) ≤ 2 ^ k := Nat.one_le_two_pow
  have h2 : 2 ^ k < M64 := two_pow_lt_M64 hk
  exact sub64_eq _ _ h1 (by omega) one_lt_M64

/-- C7: for every element size, pointer, array size and block size,
`get_alignment_offset` returns a value in the interval `[0, size]`; being a
pure function it has no side effects. -/
theorem get_alignment_offset_le_size (sizeofT p size block_size : Nat) :
    get_alignment_offset sizeofT p size block_size ≤ size := by
  unfold get_alignment_offset
  split
  · exact Nat.zero_le _
  · split
    · exact Nat.le_refl _
    · exact Nat.min_le_right _ _

/-- C8: two allocator instances compare equal exactly when their `Align`
template values match, `operator!=` is the negation of `operator==`, and
instances with differing `Align` compare unequal, all independently of the
element types. -/
theorem alloc_eq_iff_align (lhs rhs : aligned_allocator) :
    (alloc_eq lhs rhs = true ↔ lhs.align = rhs.align) ∧
    alloc_ne lhs rhs = !alloc_eq lhs rhs ∧
    (lhs.align ≠ rhs.align → alloc_ne lhs rhs = true) := by
  refine ⟨by simp [alloc_eq], rfl, ?_⟩
  intro h
  simp [alloc_ne, alloc_eq, h]

/-- Witness for C8: alignments 16 and 32 over element sizes 4 and 8 compare
unequal, and alignment 16 over element sizes 4 and 8 compares equal. -/
theorem alloc_eq_iff_align_witness :
    alloc_ne ⟨16, 4⟩ ⟨32, 8⟩ = true ∧ alloc_eq ⟨16, 4⟩ ⟨16, 8⟩ = true :=
  ⟨(alloc_eq_iff_align ⟨16, 4⟩ ⟨32, 8⟩).2.2 (by decide),
   (alloc_eq_iff_align ⟨16, 4⟩ ⟨16, 8⟩).1.mpr rfl⟩

/-- C1 (failing input): the POSIX strategy branch calls
`posix_memalign(&res, size, alignment)` although the POSIX signature is
`(memptr, alignment, size)`.  At `size = 8`, `alignment = 32` the swapped
call may validly return address 8 (a power-of-two-8-aligned block), so
`aligned_malloc` returns a non-null address that is not a multiple of the
requested alignment 32, and `allocate` accepts it without error. -/
theorem aligned_malloc_posix_breaks_alignment :
    aligned_malloc_posix 8 8 32 = 8 ∧
    aligned_malloc_posix 8 8 32 % 32 ≠ 0 ∧
    allocate (aligned_malloc_posix 8 8 32) = Except.ok 8 := by
  refine ⟨by decide, by decide, rfl⟩

/-- C10: `allocate` computes its byte count `sizeof(T) * n` in `size_type`
arithmetic, i.e. modulo `2 ^ 64`.  At `sizeof(T) = 4` and
`n = 2 ^ 62 > size_max`, the wrapped byte count is 0, strictly smaller than
the mathematical product, and `allocate` raises no error on the resulting
non-null pointer from the fallback path. -/
theorem allocate_overflow_wraparound :
    size_max 4 < 2 ^ 62 ∧
    allocate_bytes 4 (2 ^ 62) = 0 ∧
    allocate_bytes 4 (2 ^ 62) < 4 * 2 ^ 62 ∧
    allocate ((nx_aligned_malloc mem0 malloc16 (allocate_bytes 4 (2 ^ 62)) 16).1) =
      Except.ok 32 := by
  refine ⟨by decide, by decide, by decide, rfl⟩

/-- C3 (counterexample): at element size 3 (not a power of two) the address
4 is not a multiple of 3, yet the bitmask test `4 & (3 - 1)` is 0, so with
`size = 5` and `block_size = 2` the function returns 1 instead of the
claimed `size = 5`. -/
theorem get_alignment_offset_misaligned_cex :
    get_alignment_offset 3 4 5 2 = 1 ∧ 4 % 3 ≠ 0 ∧ (1 : Nat) < 2 ∧
    get_alignment_offset 3 4 5 2 ≠ 5 := by
  refine ⟨by decide, by decide, by decide, by decide⟩

/-- C4 (counterexample): with element size 1, address 2, `size = 10` and
the non-power-of-two `block_size = 3`, the bitmask computation returns 0
while the claimed formula gives `min 10 ((3 - 2 % 3) % 3) = 1`; moreover
with the non-power-of-two element size 3 and address 6 (a multiple of 3)
the bitmask branch test misfires and the function returns `size = 10`
although the claimed formula gives 0. -/
theorem get_alignment_offset_formula_cex :
    (get_alignment_offset 1 2 10 3 = 0 ∧ min 10 ((3 - 2 % 3) % 3) = 1) ∧
    (get_alignment_offset 3 6 10 2 = 10 ∧ 6 % 3 = 0 ∧
      min 10 ((2 - 6 / 3 % 2) % 2) = 0) := by
  refine ⟨⟨by decide, by decide⟩, by decide, by decide, by decide⟩

/-- C3 (amended): for a power-of-two element size `2 ^ k`, any
`block_size > 1`, and a pointer whose address is not a multiple of the
element size, `get_alignment_offset` returns `size`. -/
theorem get_alignment_offset_scalar_misaligned
    (k p size block_size : Nat) (hk : k ≤ 63) (hbs : 1 < block_size)
    (hp : p % 2 ^ k ≠ 0) :
    get_alignment_offset (2 ^ k) p size block_size = size := by
  unfold get_alignment_offset
  rw [if_neg (by omega), if_pos]
  rw [sub64_two_pow_one hk, Nat.and_pow_two_sub_one_eq_mod]
  exact hp

/-- Witness for C3: element size 4, address 6, `size = 9`,
`block_size = 4` gives 9. -/
theorem get_alignment_offset_scalar_misaligned_witness :
    get_alignment_offset (2 ^ 2) 6 9 4 = 9 :=
  get_alignment_offset_scalar_misaligned 2 6 9 4 (by omega) (by omega) (by decide)

/-- C4 (amended): for a power-of-two block size `2 ^ j > 1`, a power-of-two
element size `2 ^ k`, and a pointer whose address is a multiple of the
element size, `get_alignment_offset` returns
`min size ((block_size - index % block_size) % block_size)` where `index`
is the address divided by the element size. -/
theorem get_alignment_offset_formula_pow2
    (j k p size : Nat) (hj1 : 1 ≤ j) (hj : j ≤ 63) (hk : k ≤ 63)
    (hp : 2 ^ k ∣ p) :
    get_alignment_offset (2 ^ k) p size (2 ^ j) =
      min size ((2 ^ j - p / 2 ^ k % 2 ^ j) % 2 ^ j) := by
  unfold get_alignment_offset
  have hj2 : (2 : Nat) ^ j ≠ 1 := by
    have : (2 : Nat) ^ 1 ≤ 2 ^ j := Nat.pow_le_pow_right (by omega) hj1
    omega
  have hmask : p &&& sub64 (2 ^ k) 1 = 0 := by
    rw [sub64_two_pow_one hk, Nat.and_pow_two_sub_one_eq_mod,
      Nat.mod_eq_zero_of_dvd hp]
  rw [if_neg hj2, if_neg (fun h => h hmask)]
  show min (sub64 (2 ^ j) (p / 2 ^ k &&& sub64 (2 ^ j) 1) &&& sub64 (2 ^ j) 1)
      size = min size ((2 ^ j - p / 2 ^ k % 2 ^ j) % 2 ^ j)
  have hjlt : (2 : Nat) ^ j < M64 := two_pow_lt_M64 hj
  have hrlt : p / 2 ^ k % 2 ^ j < 2 ^ j :=
    Nat.mod_lt _ (Nat.pos_pow_of_pos j (by omega))
  rw [sub64_two_pow_one hj, Nat.and_pow_two_sub_one_eq_mod (p / 2 ^ k) j,
    sub64_eq _ _ (Nat.le_of_lt hrlt) (by omega) (by omega),
    Nat.and_pow_two_sub_one_eq_mod, Nat.min_comm]

/-- Witness for C4 at the spec's own example: element size 4, address 1028
(index 257), block size 4, `size = 10`, offset `(4 - 1) % 4 = 3`. -/
theorem get_alignment_offset_formula_pow2_witness :
    get_alignment_offset (2 ^ 2) 1028 10 (2 ^ 2) =
      min 10 ((2 ^ 2 - 1028 / 2 ^ 2 % 2 ^ 2) % 2 ^ 2) :=
  get_alignment_offset_formula_pow2 2 2 1028 10 (by omega) (by omega) (by omega)
    (by decide)

lemma wordSize_lt_M64 : wordSize < M64 := by
  unfold wordSize M64
  norm_num

lemma nx_aligned_malloc_eq (mem mallocf : Nat → Nat) (size alignment : Nat) :
    nx_aligned_malloc mem mallocf size alignment =
      if mallocf ((size + alignment) % M64) ≠ 0 then
        (((mallocf ((size + alignment) % M64) &&& not64 (sub64 alignment 1)) +
            alignment) % M64,
         fun a =>
           if a = sub64 (((mallocf ((size + alignment) % M64) &&&
               not64 (sub64 alignment 1)) + alignment) % M64) wordSize
           then mallocf ((size + alignment) % M64) else mem a)
      else (0, mem) := rfl

lemma not64_two_pow_sub_one {k : Nat} (hk : k ≤ 63) :
    not64 (2 ^ k - 1) = M64 - 2 ^ k := by
  unfold not64
  have h2 : 2 ^ k < M64 := two_pow_lt_M64 hk
  have h1 : (1 : Nat) ≤ 2 ^ k := Nat.one_le_two_pow
  rw [Nat.mod_eq_of_lt (by omega)]
  omega

lemma land_high_mask (n k : Nat) (hn : n < M64) (hk : k ≤ 64) :
    n &&& (M64 - 2 ^ k) = 2 ^ k * (n / 2 ^ k) := by
  have hpow : 2 ^ k * 2 ^ (64 - k) = M64 := by
    unfold M64
    rw [← Nat.pow_add]
    congr 1
    omega
  have hsplit : M64 - 2 ^ k = 2 ^ k * (2 ^ (64 - k) - 1) := by
    have h2 : (1 : Nat) ≤ 2 ^ (64 - k) := Nat.one_le_two_pow
    have h1 : 2 ^ k * (2 ^ (64 - k) - 1) + 2 ^ k = 2 ^ k * 2 ^ (64 - k) := by
      calc 2 ^ k * (2 ^ (64 - k) - 1) + 2 ^ k
          = 2 ^ k * (2 ^ (64 - k) - 1 + 1) := by ring
        _ = 2 ^ k * 2 ^ (64 - k) := by rw [Nat.sub_add_cancel h2]
    omega
  apply Nat.eq_of_testBit_eq
  intro i
  rw [hsplit, Nat.testBit_and, Nat.testBit_mul_pow_two, Nat.testBit_mul_pow_two]
  have hdiv : Nat.testBit (n / 2 ^ k) (i - k) = Nat.testBit n (k + (i - k)) := by
    rw [← Nat.shiftRight_eq_div_pow, Nat.testBit_shiftRight]
  by_cases hik : k ≤ i
  · by_cases hi64 : i < 64
    · have h1 : Nat.testBit (2 ^ (64 - k) - 1) (i - k) = true := by
        rw [Nat.testBit_two_pow_sub_one]
        simp only [decide_eq_true_eq]
        omega
      have h2 : k + (i - k) = i := by omega
      rw [h2] at hdiv
      simp [hik, h1, hdiv]
    · have hni : n < 2 ^ i := by
        have hge : (2 : Nat) ^ 64 ≤ 2 ^ i := Nat.pow_le_pow_right (by omega) (by omega)
        unfold M64 at hn
        omega
      have hn2 : Nat.testBit n i = false := Nat.testBit_lt_two_pow hni
      have h2 : k + (i - k) = i := by omega
      rw [h2] at hdiv
      simp [hn2, hdiv]
  · simp [hik]

lemma nx_malloc_res (mem mallocf : Nat → Nat) (size ptr k : Nat)
    (hk : k ≤ 63)
    (hm : mallocf ((size + 2 ^ k) % M64) = ptr) (h0 : ptr ≠ 0)
    (hlt : ptr + 2 ^ k < M64) :
    nx_aligned_malloc mem mallocf size (2 ^ k) =
      (2 ^ k * (ptr / 2 ^ k) + 2 ^ k,
       fun a =>
         if a = sub64 (2 ^ k * (ptr / 2 ^ k) + 2 ^ k) wordSize then ptr
         else mem a) := by
  have hptr : ptr < M64 := by
    have : (1 : Nat) ≤ 2 ^ k := Nat.one_le_two_pow
    omega
  have hdm : 2 ^ k * (ptr / 2 ^ k) ≤ ptr := Nat.mul_div_le ptr (2 ^ k)
  rw [nx_aligned_malloc_eq, hm, if_pos h0, sub64_two_pow_one hk,
    not64_two_pow_sub_one hk, land_high_mask ptr k hptr (by omega),
    Nat.mod_eq_of_lt (by omega)]

lemma nx_malloc_res_fst (mem mallocf : Nat → Nat) (size ptr k : Nat)
    (hk : k ≤ 63)
    (hm : mallocf ((size + 2 ^ k) % M64) = ptr) (h0 : ptr ≠ 0)
    (hlt : ptr + 2 ^ k < M64) :
    (nx_aligned_malloc mem mallocf size (2 ^ k)).1 =
      2 ^ k * (ptr / 2 ^ k) + 2 ^ k := by
  rw [nx_malloc_res mem mallocf size ptr k hk hm h0 hlt]

lemma nx_malloc_res_snd (mem mallocf : Nat → Nat) (size ptr k : Nat)
    (hk : k ≤ 63)
    (hm : mallocf ((size + 2 ^ k) % M64) = ptr) (h0 : ptr ≠ 0)
    (hlt : ptr + 2 ^ k < M64) :
    (nx_aligned_malloc mem mallocf size (2 ^ k)).2 =
      fun a =>
        if a = sub64 (2 ^ k * (ptr / 2 ^ k) + 2 ^ k) wordSize then ptr
        else mem a := by
  rw [nx_malloc_res mem mallocf size ptr k hk hm h0 hlt]

/-- C2 (counterexample): with raw pointer 16, alignment 16 and size 32 the
fallback returns 32, although 16 itself is the first address greater than
or equal to the raw pointer that is a multiple of 16; and with raw pointer
9 the fallback returns 16, whose preceding back-pointer word starts at
address 8, below the raw block start, so the word is not contained in the
over-allocated region. -/
theorem nx_aligned_malloc_not_first_ge :
    ((nx_aligned_malloc mem0 malloc16 32 16).1 = 32 ∧ 16 % 16 = 0 ∧
      (16 : Nat) < 32) ∧
    ((nx_aligned_malloc mem0 malloc9 32 16).1 = 16 ∧ 16 - wordSize < 9) := by
  refine ⟨⟨by decide, by decide, by decide⟩, by decide, by decide⟩

/-- C2 (amended): when the plain allocation succeeds with raw pointer
`ptr`, the fallback returns the first multiple of the alignment strictly
greater than `ptr`; provided the alignment `2 ^ k` is at least the machine
word size and `ptr` is word-aligned (as plain `malloc` guarantees), the
result leaves at least a machine word of headroom above `ptr` for the
back-pointer and keeps the `size` requested bytes inside the over-allocated
region `[ptr, ptr + size + alignment)`. -/
theorem nx_aligned_malloc_fallback_headroom
    (mem mallocf : Nat → Nat) (size ptr k res : Nat)
    (hk3 : 3 ≤ k) (hk : k ≤ 63)
    (hm : mallocf ((size + 2 ^ k) % M64) = ptr) (h0 : ptr ≠ 0)
    (h8 : wordSize ∣ ptr) (hlt : ptr + 2 ^ k < M64)
    (hres : res = (nx_aligned_malloc mem mallocf size (2 ^ k)).1) :
    2 ^ k ∣ res ∧ ptr < res ∧ res ≤ ptr + 2 ^ k ∧
    (∀ m, 2 ^ k ∣ m → ptr < m → res ≤ m) ∧
    ptr + wordSize ≤ res ∧ res + size ≤ ptr + size + 2 ^ k := by
  rw [nx_malloc_res_fst mem mallocf size ptr k hk hm h0 hlt] at hres
  subst hres
  have hdm : 2 ^ k * (ptr / 2 ^ k) ≤ ptr := Nat.mul_div_le ptr (2 ^ k)
  have hmod : 2 ^ k * (ptr / 2 ^ k) + ptr % 2 ^ k = ptr := Nat.div_add_mod ptr (2 ^ k)
  have hr : ptr % 2 ^ k < 2 ^ k := Nat.mod_lt _ (Nat.pos_pow_of_pos k (by omega))
  have hw8 : wordSize = 8 := rfl
  have hdvd8 : (8 : Nat) ∣ 2 ^ k := by
    have : (2 : Nat) ^ 3 ∣ 2 ^ k := Nat.pow_dvd_pow 2 hk3
    simpa using this
  refine ⟨⟨ptr / 2 ^ k + 1, by ring⟩, by omega, by omega, ?_, ?_, by omega⟩
  · rintro m ⟨t, rfl⟩ hgt
    have hq : ptr / 2 ^ k < t := by
      by_contra hle
      push_neg at hle
      have : 2 ^ k * t ≤ 2 ^ k * (ptr / 2 ^ k) := Nat.mul_le_mul_left _ hle
      omega
    have : 2 ^ k * (ptr / 2 ^ k + 1) ≤ 2 ^ k * t := Nat.mul_le_mul_left _ hq
    have hexp : 2 ^ k * (ptr / 2 ^ k + 1) = 2 ^ k * (ptr / 2 ^ k) + 2 ^ k := by ring
    omega
  · have hdr : (8 : Nat) ∣ ptr % 2 ^ k := by
      have hdt : (8 : Nat) ∣ 2 ^ k * (ptr / 2 ^ k) := hdvd8.mul_right _
      have h8p : (8 : Nat) ∣ ptr := by rw [hw8] at h8; exact h8
      have heq : ptr % 2 ^ k = ptr - 2 ^ k * (ptr / 2 ^ k) := by omega
      rw [heq]
      exact Nat.dvd_sub' h8p hdt
    rw [hw8]
    omega

/-- Witness for C2 at alignment 16, raw pointer 32, size 8: the result 48
is a multiple of 16 and leaves a full word of headroom above 32. -/
theorem nx_aligned_malloc_fallback_headroom_witness :
    2 ^ 4 ∣ (nx_aligned_malloc mem0 malloc32 8 (2 ^ 4)).1 ∧
    32 + wordSize ≤ (nx_aligned_malloc mem0 malloc32 8 (2 ^ 4)).1 :=
  ⟨(nx_aligned_malloc_fallback_headroom mem0 malloc32 8 32 4 _ (by omega)
      (by omega) rfl (by omega) (by decide) (by decide) rfl).1,
   (nx_aligned_malloc_fallback_headroom mem0 malloc32 8 32 4 _ (by omega)
      (by omega) rfl (by omega) (by decide) (by decide) rfl).2.2.2.2.1⟩

/-- C5: for an aligned pointer returned by the fallback from a successful
plain allocation with raw pointer `ptr`, the machine word immediately
preceding it holds exactly `ptr`, and `nx_aligned_free` on it releases
exactly `ptr` via plain deallocation. -/
theorem nx_aligned_malloc_free_roundtrip
    (mem mallocf : Nat → Nat) (size ptr k res : Nat) (mem2 : Nat → Nat)
    (hk3 : 3 ≤ k) (hk : k ≤ 63)
    (hm : mallocf ((size + 2 ^ k) % M64) = ptr) (h0 : ptr ≠ 0)
    (hlt : ptr + 2 ^ k < M64)
    (hres : res = (nx_aligned_malloc mem mallocf size (2 ^ k)).1)
    (hmem2 : mem2 = (nx_aligned_malloc mem mallocf size (2 ^ k)).2) :
    mem2 (res - wordSize) = ptr ∧ nx_aligned_free mem2 res = some ptr := by
  rw [nx_malloc_res_fst mem mallocf size ptr k hk hm h0 hlt] at hres
  rw [nx_malloc_res_snd mem mallocf size ptr k hk hm h0 hlt] at hmem2
  subst hres
  subst hmem2
  have hdm : 2 ^ k * (ptr / 2 ^ k) ≤ ptr := Nat.mul_div_le ptr (2 ^ k)
  have h8k : (8 : Nat) ≤ 2 ^ k := by
    have : (2 : Nat) ^ 3 ≤ 2 ^ k := Nat.pow_le_pow_right (by omega) hk3
    simpa using this
  have hw8 : wordSize = 8 := rfl
  have hsub : sub64 (2 ^ k * (ptr / 2 ^ k) + 2 ^ k) wordSize =
      2 ^ k * (ptr / 2 ^ k) + 2 ^ k - wordSize := by
    refine sub64_eq _ _ (by omega) (by omega) wordSize_lt_M64
  constructor
  · rw [← hsub]
    simp
  · unfold nx_aligned_free
    rw [if_pos (by omega), hsub]
    rw [← hsub]
    simp

/-- Witness for C5 at alignment 16, raw pointer 32, size 8: the word just
below the returned address 48 holds 32 and freeing 48 releases 32. -/
theorem nx_aligned_malloc_free_roundtrip_witness :
    (nx_aligned_malloc mem0 malloc32 8 (2 ^ 4)).2
        ((nx_aligned_malloc mem0 malloc32 8 (2 ^ 4)).1 - wordSize) = 32 ∧
    nx_aligned_free ((nx_aligned_malloc mem0 malloc32 8 (2 ^ 4)).2)
        ((nx_aligned_malloc mem0 malloc32 8 (2 ^ 4)).1) = some 32 :=
  nx_aligned_malloc_free_roundtrip mem0 malloc32 8 32 4 _ _ (by omega)
    (by omega) rfl (by omega) (by decide) rfl rfl

/-- C6: if the plain allocation fails, the fallback returns a null result
and leaves the word store untouched (no retry, no partial allocation), and
`allocate` raises `std::bad_alloc` exactly when `aligned_malloc` returned a
null result. -/
theorem allocate_failure_propagation
    (mem mallocf : Nat → Nat) (size alignment : Nat)
    (hfail : mallocf ((size + alignment) % M64) = 0) (r : Nat) :
    nx_aligned_malloc mem mallocf size alignment = (0, mem) ∧
    (allocate r = Except.error () ↔ r = 0) := by
  constructor
  · rw [nx_aligned_malloc_eq, hfail]
    simp
  · unfold allocate
    by_cases hr : r = 0
    · subst hr
      simp
    · rw [if_neg hr]
      simp [hr]

/-- Witness for C6: a failing plain allocation yields a null result with
the store unchanged, and `allocate 0` raises the failure. -/
theorem allocate_failure_propagation_witness :
    nx_aligned_malloc mem0 mallocFail 4 16 = (0, mem0) ∧
    (allocate 0 = Except.error () ↔ (0 : Nat) = 0) :=
  allocate_failure_propagation mem0 mallocFail 4 16 rfl 0

/-- C9: the fallback `aligned_free` is a no-op on a null pointer (no
deallocation happens), and on a non-null pointer it reads the machine word
immediately preceding the pointer and frees the address found there. -/
theorem nx_aligned_free_cases (mem : Nat → Nat) (p : Nat) (hp : p < M64) :
    nx_aligned_free mem 0 = none ∧
    (p ≠ 0 → wordSize ≤ p →
      nx_aligned_free mem p = some (mem (p - wordSize))) := by
  constructor
  · rfl
  · intro h0 h8
    unfold nx_aligned_free
    rw [if_pos h0, sub64_eq p wordSize h8 (by omega) wordSize_lt_M64]

/-- Witness for C9 at pointer 16 over the all-zero store. -/
theorem nx_aligned_free_cases_witness :
    nx_aligned_free mem0 0 = none ∧
    nx_aligned_free mem0 16 = some (mem0 (16 - wordSize)) :=
  ⟨(nx_aligned_free_cases mem0 16 (by decide)).1,
   (nx_aligned_free_cases mem0 16 (by decide)).2 (by decide) (by decide)⟩

end NXSimd
